import Mathlib

/-!
Verification of the LEMON photometry core: a shallow embedding of the
photometry pipeline (src/qphot.py) and of the stable-overscan search
(src/fitsimage.py, FITSImage.stable_overscan), with theorems checking the
natural-language specification against the code.

Modelling conventions:
* Python floats are modelled as rationals; math.sqrt is abstracted as an
  explicit function parameter (only its value at the points a theorem needs
  is ever assumed).
* External IRAF tasks (qphot, txdump, imstat, imexpr) and SExtractor are
  opaque collaborators; they are modelled as oracle parameters (a list of
  parsed txdump records, a rectangle-statistics function, a pixel-value
  function).
* Fatal faults (failed assertions, raised ValueError and IOError) are
  modelled with Except; nontermination is modelled with fuel (a run that
  returns none for every fuel never terminates).
-/

/-- A pixel position, as in the Pixel instances consumed by qphot.run:
an (x, y) coordinate pair. -/
structure Pixel where
  x : ℚ
  y : ℚ
deriving DecidableEq

/-- One record of the txdump output parsed by QPhot.run
(src/qphot.py lines 313-347): the fields xcenter, ycenter, mag, sum, flux,
stdev, where mag and stdev may be the INDEF sentinel (modelled as none). -/
structure TxdumpRecord where
  xcenter : ℚ
  ycenter : ℚ
  mag : Option ℚ
  sum : ℚ
  flux : ℚ
  stdev : Option ℚ
deriving DecidableEq

/-- The value stored in the magnitude attribute of a QPhotResult: the None
sentinel used for INDEF stars, a finite float, or the float +infinity used
as the saturation sentinel. -/
inductive Mag where
  | undef : Mag
  | finite (m : ℚ) : Mag
  | posInf : Mag
deriving DecidableEq

/-- A QPhotResult object (src/qphot.py lines 56-97).  Its constructor sets
exactly the six attributes x, y, magnitude, sum, flux and stdev.  Python
objects accept dynamically added attributes: the saturation-classification
step of qphot.run (line 515) executes the assignment
star_phot.mag = float(infinity), which creates a NEW attribute named mag on
the object instead of updating the existing attribute named magnitude.
The field dynMag models that dynamic attribute: it is absent (none) when
the object is constructed and holds the assigned value once the assignment
has run. -/
structure QPhotResult where
  x : ℚ
  y : ℚ
  magnitude : Mag
  sum : ℚ
  flux : ℚ
  stdev : Option ℚ
  dynMag : Option Mag := none
deriving DecidableEq

/-- The ValueError raised by QPhotResult.snr (src/qphot.py line 130). -/
inductive SnrFault where
  | nonPositiveGain : SnrFault
deriving DecidableEq

/-- QPhotResult.snr (src/qphot.py lines 99-151).  The square root used by
the code (math.sqrt) is abstracted as the explicit parameter sq.
The Python test `if not self.sum` is true exactly when sum equals 0.0. -/
def snr (sq : ℚ → ℚ) (res : QPhotResult) (gain : ℚ) : Except SnrFault ℚ :=
  if gain ≤ 0 then
    Except.error SnrFault.nonPositiveGain
  else if res.sum = 0 then
    Except.ok 0
  else if res.sum < 0 then
    Except.ok (-(|res.flux * gain| / sq |res.sum * gain|))
  else
    Except.ok ((res.flux * gain) / sq (res.sum * gain))

/-- The fatal consistency faults of QPhot.run: the assertion at line 316
(record count differs from the pixel count) and the assertions at lines
326-327 (a parsed center differs from its input coordinate by at least a
thousandth of a pixel). -/
inductive QPhotFault where
  | countMismatch : QPhotFault
  | centerMismatch : QPhotFault
deriving DecidableEq

/-- Construction of one QPhotResult from one parsed txdump line
(src/qphot.py lines 329-346): INDEF magnitudes map to the undefined
sentinel, INDEF stdev maps to none, and the parsed center is stored. -/
def recordToResult (r : TxdumpRecord) : QPhotResult :=
  { x := r.xcenter
    y := r.ycenter
    magnitude := match r.mag with
      | none => Mag.undef
      | some v => Mag.finite v
    sum := r.sum
    flux := r.flux
    stdev := r.stdev }

/-- The per-line parsing loop of QPhot.run (src/qphot.py lines 317-347):
the i-th txdump line is paired with the i-th pixel, the parsed center must
agree with the pixel to within a thousandth of a pixel (the assertions at
lines 326-327), and one QPhotResult is appended per line, in order. -/
def parseRecords : List Pixel → List TxdumpRecord → Except QPhotFault (List QPhotResult)
  | [], [] => Except.ok []
  | p :: ps, r :: rs =>
    if |r.xcenter - p.x| < (1/1000 : ℚ) ∧ |r.ycenter - p.y| < (1/1000 : ℚ) then
      match parseRecords ps rs with
      | Except.ok tail => Except.ok (recordToResult r :: tail)
      | Except.error e => Except.error e
    else
      Except.error QPhotFault.centerMismatch
  | _, _ => Except.error QPhotFault.countMismatch

/-- QPhot.run (src/qphot.py lines 183-376), with the external qphot/txdump
pass abstracted as the list of txdump records it produced.  The assertion
at line 316 checks that the record count equals the pixel count before the
per-line loop runs. -/
def qphot_run (pixels : List Pixel) (records : List TxdumpRecord) :
    Except QPhotFault (List QPhotResult) :=
  if records.length = pixels.length then
    parseRecords pixels records
  else
    Except.error QPhotFault.countMismatch

/-- The registration step of qphot.run (src/qphot.py lines 436-439): the
reference pixel list is deep-copied and each copy is shifted in place by
the offset.  Because the loop mutates only the fresh copies, the reference
list is unchanged when the loop finishes; the embedding returns the pair
(reference list after the step, shifted list). -/
def registration (reference : List Pixel) (dx dy : ℚ) : List Pixel × List Pixel :=
  (reference, reference.map (fun p => { p with x := p.x + dx, y := p.y + dy }))

/-- The per-star saturation-classification statement of qphot.run
(src/qphot.py lines 514-515), exactly as written: when the mask flux is
positive the code assigns float(infinity) to the attribute named mag
(creating a new dynamic attribute), and it does not touch the attribute
named magnitude. -/
def classifyStep (star_phot star_mask : QPhotResult) : QPhotResult :=
  if star_mask.flux > 0 then
    { star_phot with dynMag := some Mag.posInf }
  else
    star_phot

/-- The saturation-classification loop of qphot.run (src/qphot.py lines
509-515): the two batches must have equal length and pairwise equal
centers (the assertions at lines 509-512), and each photometered result is
processed by classifyStep against its mask counterpart. -/
def classifyBatch (img mask : List QPhotResult) : Option (List QPhotResult) :=
  if img.length = mask.length ∧
      ∀ pm ∈ img.zip mask, pm.1.x = pm.2.x ∧ pm.1.y = pm.2.y then
    some ((img.zip mask).map (fun pm => classifyStep pm.1 pm.2))
  else
    none

/-- The IOError raised by qphot.run (src/qphot.py line 474) when the path
stored in the uncimgk keyword does not exist. -/
inductive RunFault where
  | missingFile : RunFault
deriving DecidableEq

/-- The mask-source selection of qphot.run (src/qphot.py lines 466-474):
when uncimgk is None or the empty string (both falsy in Python) the
shifted image itself is used; otherwise the path is read from the header
keyword and an IOError is raised when no file exists at that path. -/
def maskSourcePath (shiftedPath : String) (readKeyword : String → String)
    (fileExists : String → Bool) (uncimgk : Option String) :
    Except RunFault String :=
  match uncimgk with
  | none => Except.ok shiftedPath
  | some k =>
    if k = "" then
      Except.ok shiftedPath
    else
      let origPath := readKeyword k
      if fileExists origPath then
        Except.ok origPath
      else
        Except.error RunFault.missingFile

/-- The saturation mask built by imexpr (src/qphot.py lines 496-500) from
the image at the given path: pixel value 1 where the source pixel exceeds
the saturation level, 0 elsewhere.  pixelValue gives the pixels of the
image stored at each path. -/
def saturMask (pixelValue : String → ℤ × ℤ → ℚ) (path : String)
    (maximum : ℤ) : ℤ × ℤ → ℤ :=
  fun c => if pixelValue path c > (maximum : ℚ) then 1 else 0

/-- The mask-construction step of qphot.run (src/qphot.py lines 466-500):
select the mask source image, then threshold it at the saturation level. -/
def runSaturMask (pixelValue : String → ℤ × ℤ → ℚ) (shiftedPath : String)
    (readKeyword : String → String) (fileExists : String → Bool)
    (uncimgk : Option String) (maximum : ℤ) :
    Except RunFault (ℤ × ℤ → ℤ) :=
  match maskSourcePath shiftedPath readKeyword fileExists uncimgk with
  | Except.error e => Except.error e
  | Except.ok p => Except.ok (saturMask pixelValue p maximum)

/-- Modelled from the spec: methods.percentage_change, from the module
methods which is absent from src (only its caller, FITSImage.stable_overscan
at src/fitsimage.py lines 801-802, is present).  The spec describes it as
the fractional change of the new value relative to the previous value
(section 4.1: compute the fractional change in mean and in standard
deviation relative to the previous iteration values). -/
def percentage_change (old new : ℚ) : ℚ :=
  (new - old) / old

/-- A point of control of FITSImage.stable_overscan
(src/fitsimage.py lines 705-821): either about to compute the statistics
of a freshly received rectangle (lines 744-745, also the target of the
recursive restart at line 791), or inside the while loop with the
statistics of the previous rectangle in hand (lines 751-821). -/
inductive SOState where
  | entry (x1 x2 y1 y2 : ℤ) (threshold : ℚ) : SOState
  | loop (x1 x2 y1 y2 : ℤ) (threshold mean stddev : ℚ) : SOState
deriving DecidableEq

/-- One step of FITSImage.stable_overscan.  stats is the pixel-statistics
oracle (IRAF imstat, external): it returns the (mean, stddev) pair of a
rectangle.  offset is the per-side shrink amount, a number of pixels.
From an entry state the code computes the statistics of the current
rectangle (lines 744-745) and enters the loop.  A loop iteration shrinks
the rectangle by offset on every side (lines 754-757); if an axis inverted
the code restarts via the recursive call at line 791, passing the
already-shrunk coordinates and twice the threshold; otherwise it computes
the new statistics, and either converges, returning the shrunk rectangle
(lines 809-816), or iterates with the updated statistics (lines 818-821). -/
def soStep (stats : ℤ → ℤ → ℤ → ℤ → ℚ × ℚ) (offset : ℕ) :
    SOState → (ℤ × ℤ × ℤ × ℤ) ⊕ SOState
  | SOState.entry x1 x2 y1 y2 t =>
    Sum.inr (SOState.loop x1 x2 y1 y2 t (stats x1 x2 y1 y2).1 (stats x1 x2 y1 y2).2)
  | SOState.loop x1 x2 y1 y2 t mean stddev =>
    let x1n := x1 + (offset : ℤ)
    let x2n := x2 - (offset : ℤ)
    let y1n := y1 + (offset : ℤ)
    let y2n := y2 - (offset : ℤ)
    if x1n > x2n ∨ y1n > y2n then
      Sum.inr (SOState.entry x1n x2n y1n y2n (t * 2))
    else
      let newMean := (stats x1n x2n y1n y2n).1
      let newStddev := (stats x1n x2n y1n y2n).2
      if |percentage_change stddev newStddev| ≤ t ∧
          |percentage_change mean newMean| ≤ t then
        Sum.inl (x1n, x2n, y1n, y2n)
      else
        Sum.inr (SOState.loop x1n x2n y1n y2n t newMean newStddev)

/-- Fuel-indexed runner for the step function: a call of
FITSImage.stable_overscan terminates with a result exactly when soRun
returns some result for a large enough fuel; a call that yields none for
every fuel never terminates. -/
def soRun (stats : ℤ → ℤ → ℤ → ℤ → ℚ × ℚ) (offset : ℕ) :
    ℕ → SOState → Option (ℤ × ℤ × ℤ × ℤ)
  | 0, _ => none
  | n + 1, st =>
    match soStep stats offset st with
    | Sum.inl r => some r
    | Sum.inr st2 => soRun stats offset n st2

/-- FITSImage.stable_overscan (src/fitsimage.py lines 705-821), entered at
the caller-supplied rectangle and threshold. -/
def stable_overscan (stats : ℤ → ℤ → ℤ → ℤ → ℚ × ℚ) (offset : ℕ) (fuel : ℕ)
    (x1 x2 y1 y2 : ℤ) (threshold : ℚ) : Option (ℤ × ℤ × ℤ × ℤ) :=
  soRun stats offset fuel (SOState.entry x1 x2 y1 y2 threshold)

/-- A concrete pixel-statistics oracle for witnesses and counterexamples:
every rectangle has mean 0 and standard deviation 0. -/
def statsZero : ℤ → ℤ → ℤ → ℤ → ℚ × ℚ :=
  fun _ _ _ _ => (0, 0)

/-- A state of stable_overscan whose rectangle is inverted in at least one
axis. -/
def SOInverted : SOState → Prop
  | SOState.entry x1 x2 y1 y2 _ => x2 < x1 ∨ y2 < y1
  | SOState.loop x1 x2 y1 y2 _ _ _ => x2 < x1 ∨ y2 < y1

/-- A concrete square-root stand-in for witnesses: it takes the value 10
at 100 and is nonnegative everywhere. -/
def sq100 : ℚ → ℚ :=
  fun v => if v = 100 then 10 else 0

/-- A concrete QPhotResult for witnesses: the margin star of the spec
end-to-end scenario, with sky-inclusive sum -100 and flux -50. -/
def qres0 : QPhotResult :=
  ⟨0, 0, Mag.undef, -100, -50, none, none⟩

/-- A concrete photometered result for the saturation counterexample: a
star measured with finite magnitude 10. -/
def satPhot0 : QPhotResult :=
  ⟨1, 2, Mag.finite 10, 100, 40, none, none⟩

/-- A concrete mask-photometry result for the saturation counterexample:
same center, mask flux 3.2 (positive, so the star is saturated). -/
def satMask0 : QPhotResult :=
  ⟨1, 2, Mag.finite 0, 5, 16/5, none, none⟩

/-- A concrete input pixel for the batch-alignment witness. -/
def pix0 : Pixel :=
  ⟨100, 200⟩

/-- A concrete txdump record for the batch-alignment witness: its center
equals pix0 exactly and its magnitude is INDEF. -/
def rec0 : TxdumpRecord :=
  ⟨100, 200, none, 7, 3, some (1/2)⟩

/-- A concrete pixel-value oracle for the mask-source witness. -/
def pv0 : String → ℤ × ℤ → ℚ :=
  fun _ _ => 0

/-- A concrete header-keyword reader for the mask-source witness. -/
def rk0 : String → String :=
  fun _ => "raw.fits"

/-- A concrete file-existence oracle that reports every path missing. -/
def feFalse : String → Bool :=
  fun _ => false

/-- Stepping from a state with an inverted rectangle never produces a
result and stays inverted: shrinking by a nonnegative offset cannot
un-invert an axis, so the exhaustion branch fires again and restarts with
a still-inverted rectangle. -/
lemma soStep_inverted (stats : ℤ → ℤ → ℤ → ℤ → ℚ × ℚ) (offset : ℕ)
    (st : SOState) (h : SOInverted st) :
    ∃ st2, soStep stats offset st = Sum.inr st2 ∧ SOInverted st2 := by
  cases st with
  | entry x1 x2 y1 y2 t =>
    exact ⟨_, rfl, h⟩
  | loop x1 x2 y1 y2 t mean stddev =>
    refine ⟨SOState.entry (x1 + (offset : ℤ)) (x2 - (offset : ℤ))
      (y1 + (offset : ℤ)) (y2 - (offset : ℤ)) (t * 2), ?_, ?_⟩
    · have hcond : x1 + (offset : ℤ) > x2 - (offset : ℤ) ∨
          y1 + (offset : ℤ) > y2 - (offset : ℤ) := by
        rcases h with h | h
        · exact Or.inl (by omega)
        · exact Or.inr (by omega)
      simp only [soStep, if_pos hcond]
    · rcases h with h | h
      · exact Or.inl (by omega)
      · exact Or.inr (by omega)

/-- From any state with an inverted rectangle, soRun returns none for
every fuel. -/
lemma soRun_inverted_none (stats : ℤ → ℤ → ℤ → ℤ → ℚ × ℚ) (offset : ℕ) :
    ∀ fuel st, SOInverted st → soRun stats offset fuel st = none := by
  intro fuel
  induction fuel with
  | zero => intro st _; rfl
  | succ n ih =>
    intro st h
    obtain ⟨st2, hstep, hinv⟩ := soStep_inverted stats offset st h
    simp only [soRun, hstep]
    exact ih st2 hinv

/-- Claim C1.  The claim states that after the saturation-classification
step a star with positive mask flux has its magnitude field equal to
positive infinity, while other stars keep their prior magnitude.  The code
at src/qphot.py line 515 instead assigns float(infinity) to a freshly
created attribute named mag and leaves the attribute named magnitude (the
one set by the constructor, read by clients, and promised by the docstring
of qphot.run at lines 390-392 to be positive infinity for saturated stars)
untouched.  This closed theorem evaluates the classification at a star
with finite magnitude 10 and mask flux 3.2 > 0: the magnitude stays 10,
is not the saturation sentinel, and the sentinel lands in the dynamic
attribute instead. -/
theorem qphot_run_saturation_magnitude_bug :
    satMask0.flux > 0 ∧
    (classifyStep satPhot0 satMask0).magnitude = Mag.finite 10 ∧
    (classifyStep satPhot0 satMask0).magnitude ≠ Mag.posInf ∧
    (classifyStep satPhot0 satMask0).dynMag = some Mag.posInf ∧
    classifyBatch [satPhot0] [satMask0] =
      some [⟨1, 2, Mag.finite 10, 100, 40, none, some Mag.posInf⟩] := by
  have hflux : satMask0.flux > 0 := by norm_num [satMask0]
  have hstep : classifyStep satPhot0 satMask0 =
      ⟨1, 2, Mag.finite 10, 100, 40, none, some Mag.posInf⟩ := by
    unfold classifyStep
    rw [if_pos hflux]
    rfl
  have hcond : [satPhot0].length = [satMask0].length ∧
      ∀ pm ∈ [satPhot0].zip [satMask0], pm.1.x = pm.2.x ∧ pm.1.y = pm.2.y := by
    refine ⟨rfl, ?_⟩
    intro pm hpm
    simp only [List.zip_cons_cons, List.zip_nil_right, List.mem_singleton] at hpm
    subst hpm
    exact ⟨rfl, rfl⟩
  refine ⟨hflux, ?_, ?_, ?_, ?_⟩
  · rw [hstep]
  · rw [hstep]
    simp
  · rw [hstep]
  · unfold classifyBatch
    rw [if_pos hcond]
    show some [classifyStep satPhot0 satMask0] = _
    rw [hstep]

/-- Claim C2.  The claim states that on exhaustion stable_overscan
restarts on the original caller-supplied rectangle with threshold 2t.
The code at src/fitsimage.py line 791 instead passes the already-shrunk,
inverted coordinates to the recursive call (the original bounds were
destructively updated at lines 754-757 and never saved).  This closed
theorem evaluates one loop step at the rectangle (0, 1, 0, 1) with
offset 1 and threshold 1: the restart state carries the shrunk inverted
rectangle (1, 0, 1, 0), which differs from a restart at the original
rectangle; consequently the whole run from (0, 1, 0, 1) never converges
(none at fuel 40), contradicting the docstring promise at lines 723-727
that the process is repeated until the method converges. -/
lemma soRun_succ_inr (stats : ℤ → ℤ → ℤ → ℤ → ℚ × ℚ) (offset : ℕ) (n : ℕ)
    (st st2 : SOState) (h : soStep stats offset st = Sum.inr st2) :
    soRun stats offset (n + 1) st = soRun stats offset n st2 := by
  rw [soRun, h]

theorem stable_overscan_restart_bug :
    soStep statsZero 1 (SOState.loop 0 1 0 1 1 0 0) =
      Sum.inr (SOState.entry 1 0 1 0 2) ∧
    SOState.entry 1 0 1 0 2 ≠ SOState.entry 0 1 0 1 2 ∧
    stable_overscan statsZero 1 40 0 1 0 1 1 = none := by
  have hstep : soStep statsZero 1 (SOState.loop 0 1 0 1 1 0 0) =
      Sum.inr (SOState.entry 1 0 1 0 2) := by
    simp only [soStep]
    norm_num
  refine ⟨hstep, by simp, ?_⟩
  have h1 : soStep statsZero 1 (SOState.entry 0 1 0 1 1) =
      Sum.inr (SOState.loop 0 1 0 1 1 0 0) := rfl
  show soRun statsZero 1 40 (SOState.entry 0 1 0 1 1) = none
  calc soRun statsZero 1 40 (SOState.entry 0 1 0 1 1)
      = soRun statsZero 1 39 (SOState.loop 0 1 0 1 1 0 0) :=
        soRun_succ_inr statsZero 1 39 _ _ h1
    _ = soRun statsZero 1 38 (SOState.entry 1 0 1 0 2) :=
        soRun_succ_inr statsZero 1 38 _ _ hstep
    _ = none :=
        soRun_inverted_none statsZero 1 38 _ (Or.inl (by norm_num))

/-- Claim C9: once FITSImage.stable_overscan reaches exhaustion, the
recursive restart receives the already-shrunk inverted coordinates, which
invert again after the first shrink of the recursive call; hence for every
statistics oracle, every offset (a pixel count) and every threshold, a
call entered at an inverted rectangle returns no result at any fuel, i.e.
never terminates. -/
theorem stable_overscan_exhaustion_diverges (stats : ℤ → ℤ → ℤ → ℤ → ℚ × ℚ)
    (offset : ℕ) (fuel : ℕ) (x1 x2 y1 y2 : ℤ) (t : ℚ)
    (h : x2 < x1 ∨ y2 < y1) :
    stable_overscan stats offset fuel x1 x2 y1 y2 t = none :=
  soRun_inverted_none stats offset fuel (SOState.entry x1 x2 y1 y2 t) h

/-- Witness for claim C9 at the concrete exhausted rectangle
(1, 0, 1, 0), offset 1, threshold 1, fuel 50. -/
theorem stable_overscan_exhaustion_diverges_witness :
    stable_overscan statsZero 1 50 1 0 1 0 1 = none :=
  stable_overscan_exhaustion_diverges statsZero 1 50 1 0 1 0 1
    (Or.inl (by norm_num))

/-- Claim C7: the registration step of qphot.run maps the i-th reference
coordinate to (x + dx, y + dy), preserves length, leaves the reference
list unchanged (the loop mutates deep copies only), and the spec scenario
[(10, 10), (50, 50)] shifted by (2, -1) yields [(12, 9), (52, 49)]. -/
theorem registration_shift_pure (ref : List Pixel) (dx dy : ℚ) :
    (registration ref dx dy).1 = ref ∧
    (registration ref dx dy).2.length = ref.length ∧
    (∀ i (h2 : i < (registration ref dx dy).2.length) (h1 : i < ref.length),
      (registration ref dx dy).2.get ⟨i, h2⟩ =
        ⟨(ref.get ⟨i, h1⟩).x + dx, (ref.get ⟨i, h1⟩).y + dy⟩) ∧
    registration [⟨10, 10⟩, ⟨50, 50⟩] 2 (-1) =
      ([⟨10, 10⟩, ⟨50, 50⟩], [⟨12, 9⟩, ⟨52, 49⟩]) := by
  refine ⟨rfl, by simp [registration], ?_, by norm_num [registration, Pixel.mk.injEq]⟩
  intro i h2 h1
  simp only [registration, List.get_eq_getElem, List.getElem_map]

/-- Witness for claim C7 at the concrete reference list of the spec
scenario, index 0. -/
theorem registration_shift_pure_witness :
    (registration [⟨10, 10⟩, ⟨50, 50⟩] 2 (-1)).1 = [⟨10, 10⟩, ⟨50, 50⟩] ∧
    (registration [⟨10, 10⟩, ⟨50, 50⟩] 2 (-1)).2.get
      ⟨0, by simp [registration]⟩ = ⟨12, 9⟩ := by
  constructor
  · exact (registration_shift_pure [⟨10, 10⟩, ⟨50, 50⟩] 2 (-1)).1
  · rw [(registration_shift_pure [⟨10, 10⟩, ⟨50, 50⟩] 2 (-1)).2.2.1 0
      (by simp [registration]) (by simp)]
    norm_num

/-- Claim C8: QPhotResult.snr raises ValueError exactly for gains at most
zero (the guard at src/qphot.py line 129 precedes every other case), and
for every positive gain it returns a value, never that error. -/
theorem snr_gain_guard (sq : ℚ → ℚ) (res : QPhotResult) (gain : ℚ) :
    (snr sq res gain = Except.error SnrFault.nonPositiveGain ↔ gain ≤ 0) ∧
    (0 < gain → ∃ v, snr sq res gain = Except.ok v) := by
  constructor
  · constructor
    · intro h
      by_contra hg
      push_neg at hg
      unfold snr at h
      rw [if_neg (not_le.mpr hg)] at h
      split_ifs at h
    · intro h
      unfold snr
      rw [if_pos h]
  · intro h
    unfold snr
    rw [if_neg (not_le.mpr h)]
    split_ifs <;> exact ⟨_, rfl⟩

/-- Witness for claim C8: at gain -1 the error is raised and at gain 2 a
value is returned, for the concrete result qres0. -/
theorem snr_gain_guard_witness :
    snr sq100 qres0 (-1) = Except.error SnrFault.nonPositiveGain ∧
    ∃ v, snr sq100 qres0 2 = Except.ok v :=
  ⟨(snr_gain_guard sq100 qres0 (-1)).1.mpr (by norm_num),
   (snr_gain_guard sq100 qres0 2).2 (by norm_num)⟩

/-- Claim C4: for every positive gain, snr returns 0 when sum is 0,
returns the negated quotient -(|flux * gain| / sqrt|sum * gain|) when sum
is negative (a value that is nonpositive whatever the sign of flux, since
the square root is nonnegative), returns (flux * gain) / sqrt(sum * gain)
when sum is positive, and on the spec scenario sum = -100, flux = -50,
gain = 1 (with sqrt 100 = 10) returns exactly -5. -/
theorem snr_sign_policy (sq : ℚ → ℚ) (res : QPhotResult) (gain : ℚ)
    (hg : 0 < gain) :
    (res.sum = 0 → snr sq res gain = Except.ok 0) ∧
    (res.sum < 0 →
      snr sq res gain =
        Except.ok (-(|res.flux * gain| / sq |res.sum * gain|)) ∧
      ((∀ v, 0 ≤ sq v) → ∀ r, snr sq res gain = Except.ok r → r ≤ 0)) ∧
    (0 < res.sum →
      snr sq res gain = Except.ok ((res.flux * gain) / sq (res.sum * gain))) ∧
    (sq 100 = 10 → res.sum = -100 → res.flux = -50 → gain = 1 →
      snr sq res gain = Except.ok (-5)) := by
  have hgain := not_le.mpr hg
  refine ⟨?_, ?_, ?_, ?_⟩
  · intro h0
    unfold snr
    rw [if_neg hgain, if_pos h0]
  · intro hneg
    have hne : res.sum ≠ 0 := ne_of_lt hneg
    have heq : snr sq res gain =
        Except.ok (-(|res.flux * gain| / sq |res.sum * gain|)) := by
      unfold snr
      rw [if_neg hgain, if_neg hne, if_pos hneg]
    refine ⟨heq, ?_⟩
    intro hsq r hr
    rw [heq] at hr
    injection hr.symm with hr2
    rw [hr2]
    have : 0 ≤ |res.flux * gain| / sq |res.sum * gain| :=
      div_nonneg (abs_nonneg _) (hsq _)
    linarith
  · intro hpos
    have hne : res.sum ≠ 0 := ne_of_gt hpos
    unfold snr
    rw [if_neg hgain, if_neg hne, if_neg (not_lt.mpr (le_of_lt hpos))]
  · intro h100 hsum hflux hgain1
    have hneg : res.sum < 0 := by rw [hsum]; norm_num
    have hne : res.sum ≠ 0 := ne_of_lt hneg
    unfold snr
    rw [if_neg hgain, if_neg hne, if_pos hneg, hsum, hflux, hgain1]
    norm_num [h100]

/-- Witness for claim C4: the spec scenario evaluated concretely, via the
theorem, gives snr = -5. -/
theorem snr_sign_policy_witness :
    snr sq100 qres0 1 = Except.ok (-5) :=
  (snr_sign_policy sq100 qres0 1 (by norm_num)).2.2.2
    (by norm_num [sq100]) rfl rfl rfl

/-- Claim C10: when uncimgk is None or the empty string, the saturation
mask is thresholded from the very image on which photometry was performed
(the shifted image) and no missing-file check runs; the missing-file fault
can only arise from a non-empty uncimgk whose header-derived path does not
exist. -/
theorem satur_mask_source_selection (pv : String → ℤ × ℤ → ℚ)
    (sp : String) (rk : String → String) (fe : String → Bool) (maximum : ℤ) :
    runSaturMask pv sp rk fe none maximum =
      Except.ok (saturMask pv sp maximum) ∧
    runSaturMask pv sp rk fe (some "") maximum =
      Except.ok (saturMask pv sp maximum) ∧
    (∀ u e, runSaturMask pv sp rk fe u maximum = Except.error e →
      ∃ k, u = some k ∧ k ≠ "" ∧ fe (rk k) = false) := by
  refine ⟨rfl, rfl, ?_⟩
  intro u e h
  match u with
  | none => simp [runSaturMask, maskSourcePath] at h
  | some k =>
    by_cases hk : k = ""
    · subst hk
      simp [runSaturMask, maskSourcePath] at h
    · refine ⟨k, rfl, hk, ?_⟩
      by_cases hf : fe (rk k)
      · exfalso
        simp [runSaturMask, maskSourcePath, hk, hf] at h
      · simpa using hf

/-- Witness for claim C10: with a keyword UNCIMG, an oracle that reports
every file missing, and the error actually raised, the theorem recovers
that the keyword was non-empty and the file check failed. -/
theorem satur_mask_source_selection_witness :
    ∃ k, (some "UNCIMG" : Option String) = some k ∧ k ≠ "" ∧
      feFalse (rk0 k) = false :=
  (satur_mask_source_selection pv0 "shifted.fits" rk0 feFalse 5).2.2
    (some "UNCIMG") RunFault.missingFile rfl

/-- Claim C6: when the rectangle is wide enough that one shrink does not
invert either axis and the statistics after the first shrink are already
within the threshold of the initial statistics, stable_overscan terminates
and returns the rectangle after exactly one shrink step, which differs
from the initial unshrunk rectangle whenever the offset is positive (the
loop always shrinks before testing convergence). -/
theorem stable_overscan_one_shrink (stats : ℤ → ℤ → ℤ → ℤ → ℚ × ℚ)
    (o : ℕ) (x1 x2 y1 y2 : ℤ) (t : ℚ) (n : ℕ)
    (hx : x1 + (o : ℤ) ≤ x2 - (o : ℤ)) (hy : y1 + (o : ℤ) ≤ y2 - (o : ℤ))
    (hs : |percentage_change (stats x1 x2 y1 y2).2
      (stats (x1 + (o : ℤ)) (x2 - (o : ℤ)) (y1 + (o : ℤ)) (y2 - (o : ℤ))).2| ≤ t)
    (hm : |percentage_change (stats x1 x2 y1 y2).1
      (stats (x1 + (o : ℤ)) (x2 - (o : ℤ)) (y1 + (o : ℤ)) (y2 - (o : ℤ))).1| ≤ t) :
    stable_overscan stats o (n + 2) x1 x2 y1 y2 t =
      some (x1 + (o : ℤ), x2 - (o : ℤ), y1 + (o : ℤ), y2 - (o : ℤ)) ∧
    (0 < o → stable_overscan stats o (n + 2) x1 x2 y1 y2 t ≠
      some (x1, x2, y1, y2)) := by
  have hinv : ¬(x1 + (o : ℤ) > x2 - (o : ℤ) ∨ y1 + (o : ℤ) > y2 - (o : ℤ)) := by
    push_neg
    exact ⟨hx, hy⟩
  have hloop : soStep stats o (SOState.loop x1 x2 y1 y2 t
      (stats x1 x2 y1 y2).1 (stats x1 x2 y1 y2).2) =
      Sum.inl (x1 + (o : ℤ), x2 - (o : ℤ), y1 + (o : ℤ), y2 - (o : ℤ)) := by
    simp only [soStep]
    rw [if_neg hinv, if_pos ⟨hs, hm⟩]
  have hrun : stable_overscan stats o (n + 2) x1 x2 y1 y2 t =
      some (x1 + (o : ℤ), x2 - (o : ℤ), y1 + (o : ℤ), y2 - (o : ℤ)) := by
    show soRun stats o (n + 2) (SOState.entry x1 x2 y1 y2 t) = _
    have hentry : soStep stats o (SOState.entry x1 x2 y1 y2 t) =
        Sum.inr (SOState.loop x1 x2 y1 y2 t
          (stats x1 x2 y1 y2).1 (stats x1 x2 y1 y2).2) := rfl
    rw [soRun_succ_inr stats o (n + 1) _ _ hentry, soRun, hloop]
  refine ⟨hrun, ?_⟩
  intro ho hcontra
  rw [hrun] at hcontra
  simp only [Option.some.injEq, Prod.mk.injEq] at hcontra
  omega

/-- Witness for claim C6 at the rectangle (0, 10, 0, 10), offset 1,
threshold 0, with the all-zero statistics oracle: the result is the
once-shrunk rectangle (1, 9, 1, 9). -/
theorem stable_overscan_one_shrink_witness :
    stable_overscan statsZero 1 2 0 10 0 10 0 = some (1, 9, 1, 9) ∧
    stable_overscan statsZero 1 2 0 10 0 10 0 ≠ some (0, 10, 0, 10) := by
  have h := stable_overscan_one_shrink statsZero 1 0 10 0 10 0 0
    (by norm_num) (by norm_num)
    (by norm_num [statsZero, percentage_change])
    (by norm_num [statsZero, percentage_change])
  constructor
  · have h1 := h.1
    norm_num at h1 ⊢
    exact h1
  · have h2 := h.2 (by norm_num)
    norm_num at h2 ⊢
    exact h2

/-- Claim C5 counterexample.  The claim states that the value returned by
a terminating stable_overscan call consists of the rectangle together
with the convergence threshold that produced it.  The code at
src/fitsimage.py line 816 returns a bare four-element coordinate tuple:
two runs that differ only in their threshold (1 versus 7), both of which
converge, return identical values, so the returned value cannot contain
the threshold that produced it. -/
theorem stable_region_threshold_cex :
    stable_overscan statsZero 1 2 0 10 0 10 1 =
      stable_overscan statsZero 1 2 0 10 0 10 7 ∧
    stable_overscan statsZero 1 2 0 10 0 10 1 = some (1, 9, 1, 9) ∧
    (1 : ℚ) ≠ 7 := by
  have h1 := (stable_overscan_one_shrink statsZero 1 0 10 0 10 1 0
    (by norm_num) (by norm_num)
    (by norm_num [statsZero, percentage_change])
    (by norm_num [statsZero, percentage_change])).1
  have h7 := (stable_overscan_one_shrink statsZero 1 0 10 0 10 7 0
    (by norm_num) (by norm_num)
    (by norm_num [statsZero, percentage_change])
    (by norm_num [statsZero, percentage_change])).1
  norm_num at h1 h7
  refine ⟨h1.trans h7.symm, h1, by norm_num⟩

/-- If soRun yields a result from a loop state, the result is the loop
rectangle shrunk k times by the offset, for some k at least 1: a
relaxation restart is impossible on a terminating run because the restart
rectangle is inverted and inverted rectangles never terminate. -/
lemma soRun_loop_result (stats : ℤ → ℤ → ℤ → ℤ → ℚ × ℚ) (o : ℕ) :
    ∀ fuel (x1 x2 y1 y2 : ℤ) (t m s : ℚ) r,
      soRun stats o fuel (SOState.loop x1 x2 y1 y2 t m s) = some r →
      ∃ k : ℕ, 1 ≤ k ∧
        r = (x1 + (k : ℤ) * (o : ℤ), x2 - (k : ℤ) * (o : ℤ),
             y1 + (k : ℤ) * (o : ℤ), y2 - (k : ℤ) * (o : ℤ)) := by
  intro fuel
  induction fuel with
  | zero =>
    intro x1 x2 y1 y2 t m s r h
    exact absurd h (by simp [soRun])
  | succ n ih =>
    intro x1 x2 y1 y2 t m s r h
    by_cases hinv : x1 + (o : ℤ) > x2 - (o : ℤ) ∨ y1 + (o : ℤ) > y2 - (o : ℤ)
    · have hstep : soStep stats o (SOState.loop x1 x2 y1 y2 t m s) =
          Sum.inr (SOState.entry (x1 + (o : ℤ)) (x2 - (o : ℤ))
            (y1 + (o : ℤ)) (y2 - (o : ℤ)) (t * 2)) := by
        simp only [soStep]
        rw [if_pos hinv]
      rw [soRun_succ_inr stats o n _ _ hstep] at h
      rw [soRun_inverted_none stats o n _ (by
        rcases hinv with hh | hh
        · exact Or.inl hh
        · exact Or.inr hh)] at h
      exact absurd h (by simp)
    · by_cases hconv : |percentage_change s
            (stats (x1 + (o : ℤ)) (x2 - (o : ℤ)) (y1 + (o : ℤ)) (y2 - (o : ℤ))).2| ≤ t ∧
          |percentage_change m
            (stats (x1 + (o : ℤ)) (x2 - (o : ℤ)) (y1 + (o : ℤ)) (y2 - (o : ℤ))).1| ≤ t
      · have hstep : soStep stats o (SOState.loop x1 x2 y1 y2 t m s) =
            Sum.inl (x1 + (o : ℤ), x2 - (o : ℤ), y1 + (o : ℤ), y2 - (o : ℤ)) := by
          simp only [soStep]
          rw [if_neg hinv, if_pos hconv]
        rw [soRun, hstep] at h
        refine ⟨1, le_refl 1, ?_⟩
        injection h with h2
        rw [← h2]
        norm_num
      · have hstep : soStep stats o (SOState.loop x1 x2 y1 y2 t m s) =
            Sum.inr (SOState.loop (x1 + (o : ℤ)) (x2 - (o : ℤ))
              (y1 + (o : ℤ)) (y2 - (o : ℤ)) t
              (stats (x1 + (o : ℤ)) (x2 - (o : ℤ)) (y1 + (o : ℤ)) (y2 - (o : ℤ))).1
              (stats (x1 + (o : ℤ)) (x2 - (o : ℤ)) (y1 + (o : ℤ)) (y2 - (o : ℤ))).2) := by
          simp only [soStep]
          rw [if_neg hinv, if_neg hconv]
        rw [soRun_succ_inr stats o n _ _ hstep] at h
        obtain ⟨k, hk, hr⟩ := ih _ _ _ _ _ _ _ _ h
        refine ⟨k + 1, by omega, ?_⟩
        rw [hr]
        push_cast
        refine Prod.ext ?_ (Prod.ext ?_ (Prod.ext ?_ ?_)) <;> ring_nf

/-- Claim C5, amended: the value returned by a terminating
stable_overscan call is the four-coordinate rectangle alone, namely the
caller rectangle shrunk k times by the offset for some k at least 1; the
convergence threshold is not part of the returned value. -/
theorem stable_overscan_result_shape (stats : ℤ → ℤ → ℤ → ℤ → ℚ × ℚ)
    (o fuel : ℕ) (x1 x2 y1 y2 : ℤ) (t : ℚ) (r : ℤ × ℤ × ℤ × ℤ)
    (h : stable_overscan stats o fuel x1 x2 y1 y2 t = some r) :
    ∃ k : ℕ, 1 ≤ k ∧
      r = (x1 + (k : ℤ) * (o : ℤ), x2 - (k : ℤ) * (o : ℤ),
           y1 + (k : ℤ) * (o : ℤ), y2 - (k : ℤ) * (o : ℤ)) := by
  cases fuel with
  | zero => exact absurd h (by simp [stable_overscan, soRun])
  | succ n =>
    have hentry : soStep stats o (SOState.entry x1 x2 y1 y2 t) =
        Sum.inr (SOState.loop x1 x2 y1 y2 t
          (stats x1 x2 y1 y2).1 (stats x1 x2 y1 y2).2) := rfl
    rw [stable_overscan, soRun_succ_inr stats o n _ _ hentry] at h
    exact soRun_loop_result stats o n x1 x2 y1 y2 t _ _ r h

/-- Witness for the amended claim C5: the terminating run at rectangle
(0, 10, 0, 10), offset 1, threshold 1 returns (1, 9, 1, 9), the
once-shrunk rectangle (k = 1). -/
theorem stable_overscan_result_shape_witness :
    ∃ k : ℕ, 1 ≤ k ∧ ((1, 9, 1, 9) : ℤ × ℤ × ℤ × ℤ) =
      (0 + (k : ℤ) * 1, 10 - (k : ℤ) * 1, 0 + (k : ℤ) * 1, 10 - (k : ℤ) * 1) := by
  have hrun : stable_overscan statsZero 1 2 0 10 0 10 1 = some (1, 9, 1, 9) := by
    have h1 := (stable_overscan_one_shrink statsZero 1 0 10 0 10 1 0
      (by norm_num) (by norm_num)
      (by norm_num [statsZero, percentage_change])
      (by norm_num [statsZero, percentage_change])).1
    norm_num at h1
    exact h1
  obtain ⟨k, hk, hr⟩ := stable_overscan_result_shape statsZero 1 2 0 10 0 10 1
    (1, 9, 1, 9) hrun
  refine ⟨k, hk, ?_⟩
  push_cast at hr ⊢
  exact hr

/-- Structure of a successful parse: one result per pixel, one record per
pixel, each result built from its record in input order, and every parsed
center within a thousandth of a pixel of its input coordinate. -/
lemma parseRecords_ok_spec :
    ∀ (ps : List Pixel) (rs : List TxdumpRecord) (b : List QPhotResult),
      parseRecords ps rs = Except.ok b →
      b.length = ps.length ∧ rs.length = ps.length ∧
      ∀ i (hb : i < b.length) (hr : i < rs.length) (hp : i < ps.length),
        b.get ⟨i, hb⟩ = recordToResult (rs.get ⟨i, hr⟩) ∧
        |(b.get ⟨i, hb⟩).x - (ps.get ⟨i, hp⟩).x| < (1/1000 : ℚ) ∧
        |(b.get ⟨i, hb⟩).y - (ps.get ⟨i, hp⟩).y| < (1/1000 : ℚ) := by
  intro ps
  induction ps with
  | nil =>
    intro rs b h
    cases rs with
    | nil =>
      have hb : b = [] := by
        have h2 : Except.ok ([] : List QPhotResult) = Except.ok b := h
        injection h2 with h3
        exact h3.symm
      subst hb
      refine ⟨rfl, rfl, ?_⟩
      intro i hb2
      exact absurd hb2 (by simp)
    | cons r rs =>
      exact absurd h (by simp [parseRecords])
  | cons p ps ih =>
    intro rs b h
    cases rs with
    | nil =>
      exact absurd h (by simp [parseRecords])
    | cons r rs =>
      rw [parseRecords] at h
      by_cases hc : |r.xcenter - p.x| < (1/1000 : ℚ) ∧ |r.ycenter - p.y| < (1/1000 : ℚ)
      · rw [if_pos hc] at h
        cases hrec : parseRecords ps rs with
        | error e =>
          rw [hrec] at h
          exact absurd h (by simp)
        | ok tail =>
          rw [hrec] at h
          have hb : b = recordToResult r :: tail := by
            injection h with h3
            exact h3.symm
          subst hb
          obtain ⟨hlen, hrl, hget⟩ := ih rs tail hrec
          refine ⟨by simp [hlen], by simp [hrl], ?_⟩
          intro i hbi hri hpi
          cases i with
          | zero =>
            refine ⟨rfl, ?_, ?_⟩
            · show |r.xcenter - p.x| < (1/1000 : ℚ)
              exact hc.1
            · show |r.ycenter - p.y| < (1/1000 : ℚ)
              exact hc.2
          | succ j =>
            exact hget j (Nat.lt_of_succ_lt_succ hbi)
              (Nat.lt_of_succ_lt_succ hri) (Nat.lt_of_succ_lt_succ hpi)
      · rw [if_neg hc] at h
        exact absurd h (by simp)

/-- Claim C3: for every non-empty coordinate list, a successful QPhot.run
returns exactly one result per input coordinate, index-aligned with no
reordering (the i-th result is built from the i-th record) and echoing its
input coordinate to within a thousandth of a pixel; a record count
different from the coordinate count always raises the count-mismatch
fault; and a parsed center at least a thousandth of a pixel away from its
input coordinate forces a fault instead of a returned batch. -/
theorem qphot_run_batch_alignment (pixels : List Pixel)
    (records : List TxdumpRecord) (_hne : pixels ≠ []) :
    (∀ batch, qphot_run pixels records = Except.ok batch →
      batch.length = pixels.length ∧
      ∀ i (hb : i < batch.length) (hr : i < records.length)
          (hp : i < pixels.length),
        batch.get ⟨i, hb⟩ = recordToResult (records.get ⟨i, hr⟩) ∧
        |(batch.get ⟨i, hb⟩).x - (pixels.get ⟨i, hp⟩).x| < (1/1000 : ℚ) ∧
        |(batch.get ⟨i, hb⟩).y - (pixels.get ⟨i, hp⟩).y| < (1/1000 : ℚ)) ∧
    (records.length ≠ pixels.length →
      qphot_run pixels records = Except.error QPhotFault.countMismatch) ∧
    (∀ i (hr : i < records.length) (hp : i < pixels.length),
      ¬(|(records.get ⟨i, hr⟩).xcenter - (pixels.get ⟨i, hp⟩).x| < (1/1000 : ℚ) ∧
        |(records.get ⟨i, hr⟩).ycenter - (pixels.get ⟨i, hp⟩).y| < (1/1000 : ℚ)) →
      ∃ e, qphot_run pixels records = Except.error e) := by
  have hok : ∀ batch, qphot_run pixels records = Except.ok batch →
      batch.length = pixels.length ∧
      ∀ i (hb : i < batch.length) (hr : i < records.length)
          (hp : i < pixels.length),
        batch.get ⟨i, hb⟩ = recordToResult (records.get ⟨i, hr⟩) ∧
        |(batch.get ⟨i, hb⟩).x - (pixels.get ⟨i, hp⟩).x| < (1/1000 : ℚ) ∧
        |(batch.get ⟨i, hb⟩).y - (pixels.get ⟨i, hp⟩).y| < (1/1000 : ℚ) := by
    intro batch h
    unfold qphot_run at h
    by_cases hlen : records.length = pixels.length
    · rw [if_pos hlen] at h
      obtain ⟨h1, _, h3⟩ := parseRecords_ok_spec pixels records batch h
      exact ⟨h1, h3⟩
    · rw [if_neg hlen] at h
      exact absurd h (by simp)
  refine ⟨hok, ?_, ?_⟩
  · intro hlen
    unfold qphot_run
    rw [if_neg hlen]
  · intro i hr hp hmis
    cases hq : qphot_run pixels records with
    | error e => exact ⟨e, rfl⟩
    | ok batch =>
      exfalso
      obtain ⟨hlen, hget⟩ := hok batch hq
      obtain ⟨heq, hx, hy⟩ := hget i (by omega) hr hp
      apply hmis
      constructor
      · have hxe : (batch.get ⟨i, by omega⟩).x = (records.get ⟨i, hr⟩).xcenter := by
          rw [heq]
          rfl
        rw [← hxe]
        exact hx
      · have hye : (batch.get ⟨i, by omega⟩).y = (records.get ⟨i, hr⟩).ycenter := by
          rw [heq]
          rfl
        rw [← hye]
        exact hy

/-- Witness for claim C3 at the one-pixel list [pix0] with the exactly
matching record rec0: the run succeeds with a one-element batch whose
single result is built from rec0. -/
theorem qphot_run_batch_alignment_witness :
    qphot_run [pix0] [rec0] = Except.ok [recordToResult rec0] ∧
    ([recordToResult rec0] : List QPhotResult).length = ([pix0] : List Pixel).length := by
  have hok : qphot_run [pix0] [rec0] = Except.ok [recordToResult rec0] := by
    have h0 : parseRecords [pix0] [rec0] = Except.ok [recordToResult rec0] := by
      rw [parseRecords, if_pos (by norm_num [pix0, rec0] :
        |rec0.xcenter - pix0.x| < (1/1000 : ℚ) ∧
        |rec0.ycenter - pix0.y| < (1/1000 : ℚ))]
      rfl
    unfold qphot_run
    rw [if_pos (by rfl)]
    exact h0
  exact ⟨hok, ((qphot_run_batch_alignment [pix0] [rec0] (by simp)).1
    [recordToResult rec0] hok).1⟩
